import Mathlib

/-!
Verification of the secure-file subclient of the cerberus-go-client repository
(`cerberus/securefile.go`, both snapshots of the file).

The Go code is shallowly embedded: the HTTP transport (`Client.DoRequest`,
`Client.DoRequestWithBody`) is a function parameter returning either an error
string or a `Response`; the local filesystem is an association list from paths
to byte sequences; the Go standard-library helpers the code calls
(`path.Join`, `path.Clean`, `filepath.Base`, `mime.ParseMediaType`,
`mime/multipart.Writer`) are modelled as executable Lean functions below.
-/

/-- Byte sequences (Go `[]byte`), each byte a natural number. -/
abbrev Bytes := List Nat

/-- A local filesystem: association list from file path to contents.
Writing a file prepends; reading takes the first (most recent) entry. -/
abbrev FileSys := List (String × Bytes)

/-- Query parameters (Go `map[string]string`); every call site passes the
empty map. -/
abbrev QueryParams := List (String × String)

/-- Media-type parameters as produced by `mime.ParseMediaType`. -/
abbrev ParamList := List (String × String)

/-! ## Go `path` / `path/filepath` helpers

`path.Clean` is modelled segment-wise: a scanner walks the characters,
splitting on `/`; each completed segment is flushed onto a (reversed) stack,
where `""` and `"."` are dropped and `".."` pops the previous element
(vanishing at the root of a rooted path, accumulating at the front of a
relative path) — exactly the lexical algorithm of Go `path.Clean`. -/

/-- Flush one path segment onto the (reversed) output stack, implementing
`path.Clean`'s treatment of `""`, `"."` and `".."` segments. -/
def flushSeg (rooted : Bool) (segs : List String) (seg : String) : List String :=
  if seg = "" ∨ seg = "." then segs
  else if seg = ".." then
    match segs with
    | [] => if rooted then [] else [".."]
    | s :: rest => if s = ".." then ".." :: s :: rest else rest
  else seg :: segs

/-- Scan the characters of a path, accumulating the current segment `cur` and
the (reversed) stack `segs` of cleaned segments. -/
def cleanRun (rooted : Bool) (cs : List Char) (segs : List String) (cur : String) :
    List String :=
  match cs with
  | [] => flushSeg rooted segs cur
  | c :: rest =>
    if c = '/' then cleanRun rooted rest (flushSeg rooted segs cur) ""
    else cleanRun rooted rest segs (cur.push c)

/-- Join path segments with `/` (Go `strings.Join(segs, "/")`). -/
def joinSegs : List String → String
  | [] => ""
  | [s] => s
  | s :: rest => s ++ "/" ++ joinSegs rest

/-- Model of Go `path.Clean`: lexically simplify a slash-separated path
(collapse duplicate slashes, drop `.` elements, resolve `..` elements). -/
def pathClean (p : String) : String :=
  if p = "" then "."
  else
    let rooted : Bool := p.data.head? = some '/'
    let segs := (cleanRun rooted p.data [] "").reverse
    let out := joinSegs segs
    if rooted then (if out = "" then "/" else "/" ++ out)
    else (if out = "" then "." else out)

/-- Model of Go `path.Join` for two elements: skip empty elements, join the
rest with `/`, and `Clean` the result (empty when both elements are empty). -/
def pathJoin (a b : String) : String :=
  if a = "" then (if b = "" then "" else pathClean b)
  else pathClean (a ++ "/" ++ b)

/-- Model of Go `path/filepath.Join` on a Unix system, where the separator is
`/` and the algorithm agrees with `path.Join`. -/
def filepathJoin (a b : String) : String := pathJoin a b

/-- Model of Go `path/filepath.Base` on a Unix system: last element of the
path after trailing slashes are removed; `"."` for the empty path, `"/"` for
a path consisting only of slashes. -/
def filepathBase (p : String) : String :=
  if p = "" then "."
  else
    let cs := p.data.reverse.dropWhile (fun c => c = '/')
    if cs = [] then "/"
    else ⟨(cs.takeWhile (fun c => c ≠ '/')).reverse⟩

/-- The raw `/`-separated segments of a path (empty segments kept), defined by
the same character walk as `cleanRun` so the two can be related by induction. -/
def rawSegsAux (cs : List Char) (cur : String) : List String :=
  match cs with
  | [] => [cur]
  | c :: rest =>
    if c = '/' then cur :: rawSegsAux rest ""
    else rawSegsAux rest (cur.push c)

/-- The raw `/`-separated segments of a path. -/
def rawSegs (p : String) : List String := rawSegsAux p.data ""

/-- The suffix that a `..`-free remote path contributes to a request path:
its non-empty, non-`.` segments joined with `/` and preceded by `/` (empty
when no segments remain). -/
def cleanedSuffix (p : String) : String :=
  let segs := (rawSegs p).filter (fun s => ¬(s = "" ∨ s = "."))
  if segs = [] then "" else "/" ++ joinSegs segs

/-! ## Go `mime.ParseMediaType`

Model of the Go standard-library parser for header values of the form
`mediatype; key=value; ...`, as used by `Get` on the `Content-Disposition`
header.  Plain `key=value` parameters with token or quoted-string values are
modelled; RFC 2231 extended/continued parameters are not.  Any syntax error
(including an empty media type, as for a missing header) is a parse error,
matching the Go function returning a non-nil error. -/

/-- Go `mime.isTSpecial`: characters that cannot occur in a token. -/
def isTSpecial (c : Char) : Bool := "()<>@,;:\\\"/[]?=".data.contains c

/-- Go `mime.isTokenChar`: printable ASCII that is not a tspecial. -/
def isTokenChar (c : Char) : Bool :=
  decide (0x20 < c.toNat) && decide (c.toNat < 0x7f) && !(isTSpecial c)

/-- Whitespace as trimmed by the Go parser (`unicode.IsSpace`, restricted to
the ASCII whitespace that can occur in a header value). -/
def isSpaceChar (c : Char) : Bool := c = ' ' || c = '\t' || c = '\n' || c = '\r'

/-- Drop leading whitespace (Go `strings.TrimLeftFunc(v, unicode.IsSpace)`). -/
def skipSpace (cs : List Char) : List Char := cs.dropWhile isSpaceChar

/-- Trim whitespace from both ends (Go `strings.TrimSpace`). -/
def trimSpaceStr (s : String) : String :=
  ⟨((s.data.dropWhile isSpaceChar).reverse.dropWhile isSpaceChar).reverse⟩

/-- Lowercase a string (Go `strings.ToLower`, ASCII case). -/
def toLowerStr (s : String) : String := ⟨s.data.map Char.toLower⟩

/-- Go `mime.consumeToken`: the longest prefix of token characters, plus the
rest of the input. -/
def consumeToken (cs : List Char) : String × List Char :=
  (⟨cs.takeWhile isTokenChar⟩, cs.dropWhile isTokenChar)

/-- Parse the remainder of a quoted string (after the opening `"`), with `\`
escaping the next character; `none` when the closing `"` is missing. -/
def consumeQuoted : List Char → Option (String × List Char)
  | [] => none
  | '"' :: rest => some ("", rest)
  | '\\' :: c :: rest => (consumeQuoted rest).map (fun p => (⟨c :: p.1.data⟩, p.2))
  | c :: rest => (consumeQuoted rest).map (fun p => (⟨c :: p.1.data⟩, p.2))

/-- Go `mime.consumeValue`: a quoted string or a non-empty token. -/
def consumeValue (cs : List Char) : Option (String × List Char) :=
  match cs with
  | '"' :: rest => consumeQuoted rest
  | _ =>
    let (tok, rest) := consumeToken cs
    if tok = "" then none else some (tok, rest)

/-- The parameter loop of `mime.ParseMediaType`: repeatedly consume
`; key=value`, lowercasing keys and rejecting duplicates; a trailing `;` is
tolerated.  `fuel` bounds the recursion (each iteration consumes at least the
`;`, so `cs.length + 1` is always enough). -/
def parseParamsLoop (fuel : Nat) (cs : List Char) (acc : ParamList) :
    Except Unit ParamList :=
  match fuel with
  | 0 => .error ()
  | fuel + 1 =>
    let cs := skipSpace cs
    if cs = [] then .ok acc.reverse
    else
      match cs with
      | ';' :: rest =>
        let rest := skipSpace rest
        if rest = [] then .ok acc.reverse
        else
          let (key, r1) := consumeToken rest
          if key = "" then .error ()
          else
            match skipSpace r1 with
            | '=' :: r2 =>
              match consumeValue (skipSpace r2) with
              | none => .error ()
              | some (value, r3) =>
                if (acc.lookup (toLowerStr key)).isSome then .error ()
                else parseParamsLoop fuel r3 ((toLowerStr key, value) :: acc)
            | _ => .error ()
      | _ => .error ()

/-- Go `mime.checkMediaTypeDisposition`: the media type is a token, optionally
`token/token`, with nothing left over. -/
def checkMediaTypeDisposition (s : String) : Bool :=
  let (maj, rest) := consumeToken s.data
  if maj = "" then false
  else
    match rest with
    | [] => true
    | '/' :: sub =>
      let (subt, rest2) := consumeToken sub
      !(subt = "") && rest2.isEmpty
    | _ => false

/-- Model of Go `mime.ParseMediaType`: media type (trimmed, lowercased)
followed by `; key=value` parameters.  Returns `.error ()` whenever the Go
function returns a non-nil error. -/
def parseMediaType (v : String) : Except Unit (String × ParamList) :=
  let base := v.data.takeWhile (fun c => c ≠ ';')
  let rest := v.data.dropWhile (fun c => c ≠ ';')
  let mediatype := toLowerStr (trimSpaceStr ⟨base⟩)
  if checkMediaTypeDisposition mediatype then
    match parseParamsLoop (rest.length + 1) rest [] with
    | .error _ => .error ()
    | .ok params => .ok (mediatype, params)
  else .error ()

/-! ## Transport, responses, requests

The external `Client` collaborator is a black box: its `DoRequest` /
`DoRequestWithBody` methods are function parameters.  A `Response` carries the
status code, the one header `Get` reads (`Header.Get("Content-Disposition")`,
`""` when absent, as in Go), and the body bytes.  Each operation additionally
returns the list of requests it handed to the transport, so that theorems can
speak about what was sent (and whether anything was sent at all). -/

/-- An HTTP response as seen by this component. -/
structure Response where
  statusCode : Nat
  contentDisposition : String
  body : Bytes
deriving DecidableEq

/-- A part of a multipart body created by `Writer.CreateFormFile` and filled
by `io.Copy`. -/
structure FormFilePart where
  fieldname : String
  filename : String
  content : Bytes
deriving DecidableEq

/-- Model of Go `mime/multipart.Writer` over a `bytes.Buffer`: the boundary
(chosen randomly in Go, a parameter here), the parts written so far, and
whether `Close` has flushed the trailing boundary. -/
structure MultipartWriter where
  boundary : String
  parts : List FormFilePart
  closed : Bool
deriving DecidableEq

/-- Go `multipart.NewWriter`: no parts yet, not closed. -/
def MultipartWriter.new (boundary : String) : MultipartWriter :=
  ⟨boundary, [], false⟩

/-- Go `Writer.CreateFormFile`: append a new empty part with the given field
name and filename. -/
def MultipartWriter.createFormFile (w : MultipartWriter) (fieldname filename : String) :
    MultipartWriter :=
  { w with parts := w.parts ++ [⟨fieldname, filename, []⟩] }

/-- `io.Copy(part, file)`: append the copied bytes to the most recently
created part. -/
def MultipartWriter.copyToLastPart (w : MultipartWriter) (data : Bytes) :
    MultipartWriter :=
  match w.parts.reverse with
  | [] => w
  | p :: rest =>
    { w with parts := ({ p with content := p.content ++ data } :: rest).reverse }

/-- Go `Writer.FormDataContentType`: `multipart/form-data` with the boundary,
quoting the boundary when it contains a special character. -/
def MultipartWriter.formDataContentType (w : MultipartWriter) : String :=
  let b :=
    if w.boundary.data.any (fun c => "()<>@,;:\\\"/[]?= ".data.contains c)
    then "\"" ++ w.boundary ++ "\"" else w.boundary
  "multipart/form-data; boundary=" ++ b

/-- Go `Writer.Close`: flush the trailing boundary (on a `bytes.Buffer` this
cannot fail). -/
def MultipartWriter.close (w : MultipartWriter) : MultipartWriter :=
  { w with closed := true }

/-- One request handed to the transport: method, path, query parameters, and
(for `DoRequestWithBody`) the content type and the multipart body. -/
structure SentRequest where
  method : String
  path : String
  queryParams : QueryParams
  contentType : Option String
  body : Option MultipartWriter
deriving DecidableEq

/-- `Client.DoRequest` (the body argument is `nil` at every call site here). -/
abbrev Transport := String → String → QueryParams → Except String Response

/-- `Client.DoRequestWithBody`: additionally takes a content type and the
multipart body. -/
abbrev TransportWithBody :=
  String → String → QueryParams → String → MultipartWriter → Except String Response

/-- The log of requests an operation handed to the transport. -/
abbrev RequestLog := List SentRequest

/-! ## Errors

Each `return`-an-error site of the Go code is one constructor, carrying the
data that the corresponding `fmt.Errorf` interpolates.  This keeps the error
kinds of the spec (transport / unexpected-status / malformed-response /
local-IO) distinguishable, as they are by message in Go. -/

/-- Errors returned by `Get` (one constructor per `return` site). -/
inductive GetError where
  | transportError (msg : String)
  | unexpectedStatus (secureFilePath : String) (code : Nat)
  | headerParseError
  | noFilename
deriving DecidableEq

/-- Errors returned by `Put` (one constructor per `return` site). -/
inductive PutError where
  | bodyError (localfile : String) (msg : String)
  | transportError (msg : String)
  | unexpectedStatus (secureFilePath : String) (code : Nat)
deriving DecidableEq

/-- Errors returned by both versions of `List` (one constructor per `return`
site; the two snapshots differ only in message wording, not in the data). -/
inductive ListError where
  | transportError (msg : String)
  | unexpectedStatus (code : Nat)
  | decodeError (msg : String)
deriving DecidableEq

/-! ## The secure-file operations (`cerberus/securefile.go`) -/

/-- `var secureFileBasePath = "/v1/secure-file"` -/
def secureFileBasePath : String := "/v1/secure-file"

/-- `var secureFileListBasePath = "/v1/secure-files"` -/
def secureFileListBasePath : String := "/v1/secure-files"

/-- `getUploadFileBodyWriter`: open the local file, create a multipart writer,
create the single `file-content` form file named after the local file's base
name, copy the file into it, record the content type, and close the writer.
Opening a file absent from `fs` is the Go `os.Open` error. -/
def getUploadFileBodyWriter (fs : FileSys) (boundary : String) (localfile : String) :
    Except String (MultipartWriter × String) :=
  match fs.lookup localfile with
  | none => .error ("open " ++ localfile)
  | some fileContent =>
    let w := MultipartWriter.new boundary
    let filename := filepathBase localfile
    let w := w.createFormFile "file-content" filename
    let w := w.copyToLastPart fileContent
    let contentType := w.formDataContentType
    let w := w.close
    .ok (w, contentType)

/-- `SecureFile.Get`: request the file at
`path.Join(secureFileBasePath, secureFilePath)`, require status 200, parse the
`Content-Disposition` header, require a `filename` parameter, and write the
body to `filepath.Join(localpath, filename)`.  Returns the result, the updated
local filesystem, and the log of requests handed to the transport. -/
def SecureFile.Get (transport : Transport) (fs : FileSys)
    (secureFilePath localpath : String) :
    Except GetError Unit × FileSys × RequestLog :=
  let req : SentRequest :=
    ⟨"GET", pathJoin secureFileBasePath secureFilePath, [], none, none⟩
  match transport "GET" (pathJoin secureFileBasePath secureFilePath) [] with
  | .error e => (.error (.transportError e), fs, [req])
  | .ok resp =>
    if resp.statusCode ≠ 200 then -- http.StatusOK
      (.error (.unexpectedStatus secureFilePath resp.statusCode), fs, [req])
    else
      match parseMediaType resp.contentDisposition with
      | .error _ => (.error .headerParseError, fs, [req])
      | .ok (_, dispositionParams) =>
        match dispositionParams.lookup "filename" with
        | none => (.error .noFilename, fs, [req])
        | some localfile =>
          (.ok (), (filepathJoin localpath localfile, resp.body) :: fs, [req])

/-- `SecureFile.Put`: build the multipart body with `getUploadFileBodyWriter`
(reporting its failure without any request), then POST it with the recorded
content type to `path.Join(secureFileBasePath, secureFilePath)` and require
status 204.  Returns the result and the log of requests handed to the
transport. -/
def SecureFile.Put (transport : TransportWithBody) (fs : FileSys) (boundary : String)
    (secureFilePath localfile : String) :
    Except PutError Unit × RequestLog :=
  match getUploadFileBodyWriter fs boundary localfile with
  | .error e => (.error (.bodyError localfile e), [])
  | .ok (body, contentType) =>
    let req : SentRequest :=
      ⟨"POST", pathJoin secureFileBasePath secureFilePath, [], some contentType, some body⟩
    match transport "POST" (pathJoin secureFileBasePath secureFilePath) [] contentType body with
    | .error e => (.error (.transportError e), [req])
    | .ok resp =>
      if resp.statusCode ≠ 204 then -- http.StatusNoContent
        (.error (.unexpectedStatus secureFilePath resp.statusCode), [req])
      else (.ok (), [req])

/-- The response decoder used by both versions of `List` (`parseResponse`,
defined elsewhere in the repository); an abstract parameter here. -/
abbrev ParseFn (α : Type) := Bytes → Except String α

/-- `SecureFile.List` (second snapshot): GET
`path.Join(secureFileListBasePath, rootpath)` with empty query parameters,
require status 200, and decode the body with `parseResponse`. -/
def SecureFile.List {α : Type} (transport : Transport) (parse : ParseFn α)
    (rootpath : String) : Except ListError α × RequestLog :=
  let req : SentRequest :=
    ⟨"GET", pathJoin secureFileListBasePath rootpath, [], none, none⟩
  match transport "GET" (pathJoin secureFileListBasePath rootpath) [] with
  | .error e => (.error (.transportError e), [req])
  | .ok resp =>
    if resp.statusCode ≠ 200 then -- http.StatusOK
      (.error (.unexpectedStatus resp.statusCode), [req])
    else
      match parse resp.body with
      | .error e => (.error (.decodeError e), [req])
      | .ok sfr => (.ok sfr, [req])

/-- `SecureFile.List` (first snapshot, path-less): GET `secureFileListBasePath`
itself with empty query parameters, require status 200, and decode the body
with `parseResponse`. -/
def SecureFileV0.List {α : Type} (transport : Transport) (parse : ParseFn α) :
    Except ListError α × RequestLog :=
  let req : SentRequest := ⟨"GET", secureFileListBasePath, [], none, none⟩
  match transport "GET" secureFileListBasePath [] with
  | .error e => (.error (.transportError e), [req])
  | .ok resp =>
    if resp.statusCode ≠ 200 then -- http.StatusOK
      (.error (.unexpectedStatus resp.statusCode), [req])
    else
      match parse resp.body with
      | .error e => (.error (.decodeError e), [req])
      | .ok sfr => (.ok sfr, [req])

deriving instance DecidableEq for Except

/-! ## The list-response data model (`api` package)

The `api.SecureFileSummary` / `api.SecureFilesResponse` structures and the
JSON decoding performed by `parseResponse` are repository code that lives
outside the secure-file source file; they are modelled from the spec below. -/

/-- A JSON document. -/
inductive Json where
  | null
  | bool (b : Bool)
  | num (n : Int)
  | str (s : String)
  | arr (xs : List Json)
  | obj (fields : List (String × Json))

/-- Modelled from the spec: `api.SecureFileSummary` — the metadata record of
one stored file (container identifier, logical path, byte size, display name,
creator identity, creation timestamp, last-updating identity, last-update
timestamp; timestamps kept as their wire strings). -/
structure SecureFileSummary where
  sdbid : String
  path : String
  size : Int
  name : String
  createdBy : String
  created : String
  lastUpdatedBy : String
  lastUpdated : String
deriving DecidableEq

/-- Modelled from the spec: `api.SecureFilesResponse` — a page of summaries
plus pagination state; the next-page offset is absent when there is no next
page. -/
structure SecureFilesResponse where
  hasNext : Bool
  nextOffset : Option Int
  limit : Int
  offset : Int
  resultCount : Int
  totalCount : Int
  summaries : List SecureFileSummary
deriving DecidableEq

/-- Modelled from the spec: decode one summary object of the wire contract
`{sdbox_id, path, size_in_bytes, name, created_by, created_ts,
last_updated_by, last_updated_ts}`, field by field. -/
def decodeSummary : Json → Option SecureFileSummary
  | .obj [("sdbox_id", .str sdbid), ("path", .str path),
          ("size_in_bytes", .num size), ("name", .str name),
          ("created_by", .str cb), ("created_ts", .str cts),
          ("last_updated_by", .str lub), ("last_updated_ts", .str luts)] =>
    some ⟨sdbid, path, size, name, cb, cts, lub, luts⟩
  | _ => none

/-- Decode a list of summary objects. -/
def decodeSummaries : List Json → Option (List SecureFileSummary)
  | [] => some []
  | j :: rest => do
    let s ← decodeSummary j
    let l ← decodeSummaries rest
    pure (s :: l)

/-- Decode the `next_offset` field: `null` when absent, else a number. -/
def decodeNextOffset : Json → Option (Option Int)
  | .null => some none
  | .num n => some (some n)
  | _ => none

/-- Modelled from the spec: `parseResponse`'s decoding of a list response of
the wire contract `{has_next, next_offset, limit, offset,
file_count_in_result, total_file_count, secure_file_summaries}`, field by
field and with no cross-field checks. -/
def decodeSecureFilesResponse : Json → Option SecureFilesResponse
  | .obj [("has_next", .bool hn), ("next_offset", no), ("limit", .num lim),
          ("offset", .num off), ("file_count_in_result", .num rc),
          ("total_file_count", .num tc), ("secure_file_summaries", .arr ss)] => do
    let noff ← decodeNextOffset no
    let sums ← decodeSummaries ss
    pure ⟨hn, noff, lim, off, rc, tc, sums⟩
  | _ => none

/-- Encode one summary back to its wire object. -/
def encodeSummary (s : SecureFileSummary) : Json :=
  .obj [("sdbox_id", .str s.sdbid), ("path", .str s.path),
        ("size_in_bytes", .num s.size), ("name", .str s.name),
        ("created_by", .str s.createdBy), ("created_ts", .str s.created),
        ("last_updated_by", .str s.lastUpdatedBy),
        ("last_updated_ts", .str s.lastUpdated)]

/-- Encode the next-page offset: `null` when absent. -/
def encodeNextOffset : Option Int → Json
  | none => .null
  | some n => .num n

/-- Encode a list response back to its wire document. -/
def encodeSecureFilesResponse (r : SecureFilesResponse) : Json :=
  .obj [("has_next", .bool r.hasNext),
        ("next_offset", encodeNextOffset r.nextOffset),
        ("limit", .num r.limit), ("offset", .num r.offset),
        ("file_count_in_result", .num r.resultCount),
        ("total_file_count", .num r.totalCount),
        ("secure_file_summaries", .arr (r.summaries.map encodeSummary))]

/-! ## Helper lemmas -/

/-- The requests `Put` hands to the transport: none when building the body
fails, exactly one POST of the built body otherwise — whatever the transport
answers. -/
theorem put_requests (transport : TransportWithBody) (fs : FileSys)
    (boundary remote localfile : String) :
    (SecureFile.Put transport fs boundary remote localfile).2 =
      (match getUploadFileBodyWriter fs boundary localfile with
       | .error _ => []
       | .ok (body, contentType) =>
         [⟨"POST", pathJoin secureFileBasePath remote, [], some contentType, some body⟩]) := by
  cases hb : getUploadFileBodyWriter fs boundary localfile with
  | error e => simp [SecureFile.Put, hb]
  | ok p =>
    obtain ⟨body, contentType⟩ := p
    cases ht : transport "POST" (pathJoin secureFileBasePath remote) [] contentType body with
    | error e => simp [SecureFile.Put, hb, ht]
    | ok resp => by_cases h : resp.statusCode = 204 <;> simp [SecureFile.Put, hb, ht, h]

/-- The requests `Get` hands to the transport: always exactly one GET of the
joined path with empty query parameters and no body. -/
theorem get_requests (transport : Transport) (fs : FileSys) (remote dir : String) :
    (SecureFile.Get transport fs remote dir).2.2 =
      [⟨"GET", pathJoin secureFileBasePath remote, [], none, none⟩] := by
  cases ht : transport "GET" (pathJoin secureFileBasePath remote) [] with
  | error e => simp [SecureFile.Get, ht]
  | ok resp =>
    by_cases h : resp.statusCode = 200
    · cases hp : parseMediaType resp.contentDisposition with
      | error e => simp [SecureFile.Get, ht, h, hp]
      | ok q =>
        obtain ⟨mt, params⟩ := q
        cases hl : params.lookup "filename" <;> simp [SecureFile.Get, ht, h, hp, hl]
    · simp [SecureFile.Get, ht, h]

/-- The built upload body for a readable local file, fully evaluated. -/
theorem getUploadFileBodyWriter_ok (fs : FileSys) (boundary localfile : String)
    (content : Bytes) (h : fs.lookup localfile = some content) :
    getUploadFileBodyWriter fs boundary localfile =
      .ok (⟨boundary, [⟨"file-content", filepathBase localfile, content⟩], true⟩,
           MultipartWriter.formDataContentType
             ⟨boundary, [⟨"file-content", filepathBase localfile, content⟩], true⟩) := by
  simp [getUploadFileBodyWriter, h, MultipartWriter.new, MultipartWriter.createFormFile,
        MultipartWriter.copyToLastPart, MultipartWriter.close,
        MultipartWriter.formDataContentType]

/-! ## C1 — `Get` on a response with malformed/absent filename parameter -/

/-- C1 (counterexample): against a response that is missing the `filename`
parameter but has status 500, `Get` returns the unexpected-status error, not a
malformed-response error — the status check runs before header parsing, so the
claimed "regardless of the response's status code" fails. -/
theorem get_malformed_regardless_of_status_counterexample :
    (SecureFile.Get (fun _ _ _ => .ok ⟨500, "attachment", [104]⟩) [] "/x" "/tmp").1 =
      .error (.unexpectedStatus "/x" 500) ∧
    (SecureFile.Get (fun _ _ _ => .ok ⟨500, "attachment", [104]⟩) [] "/x" "/tmp").1 ≠
      .error .headerParseError ∧
    (SecureFile.Get (fun _ _ _ => .ok ⟨500, "attachment", [104]⟩) [] "/x" "/tmp").1 ≠
      .error .noFilename := by
  decide

/-- C1 (amended): for a response with status 200 whose `Content-Disposition`
header is malformed or lacks the `filename` parameter, `Get` returns a
malformed-response error (header-parse or no-filename) and writes nothing (no
fallback name); for non-200 responses the status error takes precedence. -/
theorem get_malformed_header_is_hard_error (resp : Response) (fs : FileSys)
    (remote dir : String) (h200 : resp.statusCode = 200)
    (hbad : parseMediaType resp.contentDisposition = .error () ∨
      ∃ mt params, parseMediaType resp.contentDisposition = .ok (mt, params) ∧
        params.lookup "filename" = none) :
    ((SecureFile.Get (fun _ _ _ => .ok resp) fs remote dir).1 = .error .headerParseError ∨
     (SecureFile.Get (fun _ _ _ => .ok resp) fs remote dir).1 = .error .noFilename) ∧
    (SecureFile.Get (fun _ _ _ => .ok resp) fs remote dir).2.1 = fs := by
  rcases hbad with hb | ⟨mt, params, hok, hnone⟩
  · simp [SecureFile.Get, h200, hb]
  · simp [SecureFile.Get, h200, hok, hnone]

/-- C1 (witness): the amended theorem at a concrete 200 response whose
disposition header has no `filename` parameter. -/
theorem get_malformed_header_is_hard_error_witness :
    ((SecureFile.Get (fun _ _ _ => .ok ⟨200, "attachment", [104]⟩) [] "/x" "/tmp").1 =
        .error .headerParseError ∨
     (SecureFile.Get (fun _ _ _ => .ok ⟨200, "attachment", [104]⟩) [] "/x" "/tmp").1 =
        .error .noFilename) ∧
    (SecureFile.Get (fun _ _ _ => .ok ⟨200, "attachment", [104]⟩) [] "/x" "/tmp").2.1 = [] :=
  get_malformed_header_is_hard_error ⟨200, "attachment", [104]⟩ [] "/x" "/tmp" rfl
    (Or.inr ⟨"attachment", [], by decide, rfl⟩)

/-! ## C2 — `Put` succeeds exactly on 204 -/

/-- C2: when the transport returns a response, `Put` succeeds iff its status
is 204 No Content; any other status (200 included) yields the error carrying
the status code and the remote path. -/
theorem put_success_iff_204 (resp : Response) (fs : FileSys)
    (boundary remote localfile : String) (content : Bytes)
    (h : fs.lookup localfile = some content) :
    ((SecureFile.Put (fun _ _ _ _ _ => .ok resp) fs boundary remote localfile).1 = .ok ()
       ↔ resp.statusCode = 204) ∧
    (resp.statusCode ≠ 204 →
      (SecureFile.Put (fun _ _ _ _ _ => .ok resp) fs boundary remote localfile).1 =
        .error (.unexpectedStatus remote resp.statusCode)) := by
  by_cases hs : resp.statusCode = 204 <;>
    simp [SecureFile.Put, getUploadFileBodyWriter, h, hs]

/-- C2 (witness): a 200 response makes the concrete `Put` fail with the
unexpected-status error, and the success iff reduces to `200 = 204` being
false. -/
theorem put_success_iff_204_witness :
    ¬ ((SecureFile.Put (fun _ _ _ _ _ => .ok ⟨200, "", []⟩) [("s.txt", [9])] "B" "/p" "s.txt").1
        = .ok ()) ∧
    (SecureFile.Put (fun _ _ _ _ _ => .ok ⟨200, "", []⟩) [("s.txt", [9])] "B" "/p" "s.txt").1 =
      .error (.unexpectedStatus "/p" 200) := by
  have h := put_success_iff_204 ⟨200, "", []⟩ [("s.txt", [9])] "B" "/p" "s.txt" [9] rfl
  exact ⟨fun hok => by simpa using h.1.mp hok, h.2 (by decide)⟩

/-! ## C3 — `Put` sends a single-part multipart body -/

/-- C3: for a readable local file with bytes `content`, `Put` hands the
transport exactly one POST whose body is a closed (trailing boundary flushed)
multipart writer holding the single part named `file-content`, with the local
file's base name as its filename and `content` as its content, and whose
content type is the writer's boundary-carrying `FormDataContentType` string. -/
theorem put_multipart_single_part (transport : TransportWithBody) (fs : FileSys)
    (boundary remote localfile : String) (content : Bytes)
    (h : fs.lookup localfile = some content) :
    (SecureFile.Put transport fs boundary remote localfile).2 =
      [⟨"POST", pathJoin secureFileBasePath remote, [],
        some (MultipartWriter.formDataContentType
          ⟨boundary, [⟨"file-content", filepathBase localfile, content⟩], true⟩),
        some ⟨boundary, [⟨"file-content", filepathBase localfile, content⟩], true⟩⟩] := by
  rw [put_requests, getUploadFileBodyWriter_ok fs boundary localfile content h]

/-- C3 (witness): the concrete upload of `dir/secret.txt`: the part filename
is the base name `secret.txt` (not the remote path's basename `other.bin`),
the part content is the file bytes, the writer is closed, and the content type
carries the boundary. -/
theorem put_multipart_single_part_witness :
    (SecureFile.Put (fun _ _ _ _ _ => .ok ⟨204, "", []⟩) [("dir/secret.txt", [1, 2, 3])]
        "B42" "/app/other.bin" "dir/secret.txt").2 =
      [⟨"POST", "/v1/secure-file/app/other.bin", [],
        some "multipart/form-data; boundary=B42",
        some ⟨"B42", [⟨"file-content", "secret.txt", [1, 2, 3]⟩], true⟩⟩] := by
  have h := put_multipart_single_part (fun _ _ _ _ _ => .ok ⟨204, "", []⟩)
    [("dir/secret.txt", [1, 2, 3])] "B42" "/app/other.bin" "dir/secret.txt" [1, 2, 3] rfl
  exact h

/-! ## C4 — successful `Get` writes the server-named file -/

/-- C4: against a 200 response whose disposition header parses with filename
`n` and whose body is `resp.body`, `Get` succeeds and writes exactly the body
bytes to `filepath.Join(localDirectory, n)` — the name comes from the server
header, while the caller's remote path only shapes the request path. -/
theorem get_writes_server_named_file (resp : Response) (fs : FileSys)
    (remote dir mt : String) (params : ParamList) (n : String)
    (h200 : resp.statusCode = 200)
    (hparse : parseMediaType resp.contentDisposition = .ok (mt, params))
    (hname : params.lookup "filename" = some n) :
    SecureFile.Get (fun _ _ _ => .ok resp) fs remote dir =
      (.ok (), (filepathJoin dir n, resp.body) :: fs,
       [⟨"GET", pathJoin secureFileBasePath remote, [], none, none⟩]) := by
  simp [SecureFile.Get, h200, hparse, hname]

/-- C4 (witness): the spec's example — a 200 response with
`Content-Disposition: attachment; filename="hello.txt"` and body
`hello world` produces the file `/tmp/dl/hello.txt` with exactly those
bytes. -/
theorem get_writes_server_named_file_witness :
    SecureFile.Get
        (fun _ _ _ => .ok ⟨200, "attachment; filename=\"hello.txt\"",
          [104, 101, 108, 108, 111, 32, 119, 111, 114, 108, 100]⟩)
        [] "/test/file/hello.txt" "/tmp/dl" =
      (.ok (), [("/tmp/dl/hello.txt",
        [104, 101, 108, 108, 111, 32, 119, 111, 114, 108, 100])],
       [⟨"GET", "/v1/secure-file/test/file/hello.txt", [], none, none⟩]) := by
  have h := get_writes_server_named_file
    ⟨200, "attachment; filename=\"hello.txt\"",
      [104, 101, 108, 108, 111, 32, 119, 111, 114, 108, 100]⟩
    [] "/test/file/hello.txt" "/tmp/dl" "attachment" [("filename", "hello.txt")] "hello.txt"
    rfl (by decide) rfl
  exact h

/-! ## C5 — `Get` on a non-200 status -/

/-- C5: when the transport returns a response with a non-200 status, `Get`
returns the error carrying the status code and the remote path, and the local
filesystem is unchanged (no file is created). -/
theorem get_non200_no_file (resp : Response) (fs : FileSys) (remote dir : String)
    (h : resp.statusCode ≠ 200) :
    SecureFile.Get (fun _ _ _ => .ok resp) fs remote dir =
      (.error (.unexpectedStatus remote resp.statusCode), fs,
       [⟨"GET", pathJoin secureFileBasePath remote, [], none, none⟩]) := by
  simp [SecureFile.Get, h]

/-- C5 (witness): a concrete 500 response — the error carries 500 and the
remote path, and the filesystem stays empty. -/
theorem get_non200_no_file_witness :
    SecureFile.Get (fun _ _ _ => .ok ⟨500, "attachment; filename=\"hello.txt\"", [104]⟩)
        [] "/test/file/hello.txt" "/tmp/dl" =
      (.error (.unexpectedStatus "/test/file/hello.txt" 500), [],
       [⟨"GET", "/v1/secure-file/test/file/hello.txt", [], none, none⟩]) := by
  have h := get_non200_no_file ⟨500, "attachment; filename=\"hello.txt\"", [104]⟩
    [] "/test/file/hello.txt" "/tmp/dl" (by decide)
  exact h

/-! ## C6 — local failure in `Put` precedes any network call -/

/-- C6: if the local file cannot be opened, `Put` reports the body-building
error and its request log is empty — the transport is never invoked. -/
theorem put_local_failure_no_request (transport : TransportWithBody) (fs : FileSys)
    (boundary remote localfile : String) (h : fs.lookup localfile = none) :
    SecureFile.Put transport fs boundary remote localfile =
      (.error (.bodyError localfile ("open " ++ localfile)), []) := by
  simp [SecureFile.Put, getUploadFileBodyWriter, h]

/-- C6 (witness): uploading a missing local file issues no request at all. -/
theorem put_local_failure_no_request_witness :
    SecureFile.Put (fun _ _ _ _ _ => .ok ⟨204, "", []⟩) [] "B" "/p" "missing.txt" =
      (.error (.bodyError "missing.txt" "open missing.txt"), []) :=
  put_local_failure_no_request (fun _ _ _ _ _ => .ok ⟨204, "", []⟩) [] "B" "/p"
    "missing.txt" rfl

/-! ## C9 — the output path is an unsanitized join -/

/-- C9: the path `Get` writes to is exactly `filepath.Join(localDirectory,
filename)` with the server-supplied filename and no sanitization; since the
join resolves `..` lexically, a server-supplied `../evil` escapes the target
directory `/tmp/dl` and lands at `/tmp/evil`. -/
theorem get_output_path_unsanitized :
    (∀ (resp : Response) (fs : FileSys) (remote dir mt : String)
        (params : ParamList) (n : String),
      resp.statusCode = 200 →
      parseMediaType resp.contentDisposition = .ok (mt, params) →
      params.lookup "filename" = some n →
      (SecureFile.Get (fun _ _ _ => .ok resp) fs remote dir).2.1 =
        (filepathJoin dir n, resp.body) :: fs) ∧
    filepathJoin "/tmp/dl" "../evil" = "/tmp/evil" ∧
    ("/tmp/dl/".data.isPrefixOf "/tmp/evil".data) = false := by
  refine ⟨?_, by decide, by decide⟩
  intro resp fs remote dir mt params n h200 hparse hname
  simp [SecureFile.Get, h200, hparse, hname]

/-- C9 (witness): a concrete 200 response whose server-supplied filename is
`../evil` makes `Get` create `/tmp/evil`, outside the target directory
`/tmp/dl`. -/
theorem get_output_path_unsanitized_witness :
    (SecureFile.Get (fun _ _ _ => .ok ⟨200, "attachment; filename=\"../evil\"", [9]⟩)
        [] "/x" "/tmp/dl").2.1 = [("/tmp/evil", [9])] := by
  have h := get_output_path_unsanitized.1
    ⟨200, "attachment; filename=\"../evil\"", [9]⟩ [] "/x" "/tmp/dl"
    "attachment" [("filename", "../evil")] "../evil" rfl (by decide) rfl
  exact h

/-! ## C8 — the path-less `List` equals `List` with an empty root path -/

/-- Joining the empty root path onto the listing base route leaves it
unchanged. -/
theorem pathJoin_listBase_empty : pathJoin secureFileListBasePath "" = secureFileListBasePath := by
  decide

/-- C8: the path-less `List` of the first snapshot and the root-path-aware
`List` of the second called with the empty root path are the same function of
the transport and decoder: same single GET to the listing route with empty
query parameters, same decoded response, and the same error in the same
conditions. -/
theorem list_pathless_is_empty_rootpath (α : Type) (transport : Transport)
    (parse : ParseFn α) :
    SecureFileV0.List transport parse = SecureFile.List transport parse "" := by
  simp only [SecureFileV0.List, SecureFile.List, pathJoin_listBase_empty]

/-! ## C10 — request-path normalization

Lemmas relating the character-level `cleanRun` scanner to the raw segments of
the remote path, then the two normalization facts about
`path.Join(secureFileBasePath, p)`. -/

theorem flushSeg_empty (rooted : Bool) (segs : List String) : flushSeg rooted segs "" = segs := rfl

theorem cleanRun_slash (rooted : Bool) (rest : List Char) (segs : List String) :
    cleanRun rooted ('/' :: rest) segs "" = cleanRun rooted rest segs "" := rfl

theorem cleanRun_base_consumed (rest : List Char) :
    cleanRun true
        ('/' :: 'v' :: '1' :: '/' :: 's' :: 'e' :: 'c' :: 'u' :: 'r' :: 'e' :: '-' ::
          'f' :: 'i' :: 'l' :: 'e' :: '/' :: rest) [] "" =
      cleanRun true rest ["secure-file", "v1"] "" := rfl

theorem flushSeg_eq_filter (rooted : Bool) (segs : List String) (cur : String)
    (h : cur ≠ "..") :
    flushSeg rooted segs cur =
      ([cur].filter (fun s => ¬(s = "" ∨ s = "."))).reverse ++ segs := by
  rcases Decidable.em (cur = "" ∨ cur = ".") with hc | hc
  · rcases hc with rfl | rfl <;> simp [flushSeg]
  · push_neg at hc
    obtain ⟨h1, h2⟩ := hc
    simp [flushSeg, h1, h2, h]

theorem cleanRun_no_dotdot (rooted : Bool) (cs : List Char) :
    ∀ (cur : String) (segs : List String), ".." ∉ rawSegsAux cs cur →
      cleanRun rooted cs segs cur =
        ((rawSegsAux cs cur).filter (fun s => ¬(s = "" ∨ s = "."))).reverse ++ segs := by
  induction cs with
  | nil =>
    intro cur segs h
    have hcur : cur ≠ ".." := by
      intro hq
      exact h (by simp [rawSegsAux, hq])
    simpa [cleanRun, rawSegsAux] using flushSeg_eq_filter rooted segs cur hcur
  | cons c rest ih =>
    intro cur segs h
    by_cases hc : c = '/'
    · subst hc
      have hraw : rawSegsAux ('/' :: rest) cur = cur :: rawSegsAux rest "" := rfl
      rw [hraw] at h
      have hcur : cur ≠ ".." := by
        intro hq
        exact h (by simp [hq])
      have h2 : ".." ∉ rawSegsAux rest "" := fun hm => h (List.mem_cons_of_mem _ hm)
      have hstep : cleanRun rooted ('/' :: rest) segs cur =
          cleanRun rooted rest (flushSeg rooted segs cur) "" := rfl
      rw [hstep, ih "" (flushSeg rooted segs cur) h2,
          flushSeg_eq_filter rooted segs cur hcur, hraw, List.filter_cons]
      rcases Decidable.em (cur = "" ∨ cur = ".") with hk | hk
      · rcases hk with rfl | rfl <;> simp
      · push_neg at hk
        simp [List.filter_cons, hk.1, hk.2]
    · have hraw : rawSegsAux (c :: rest) cur = rawSegsAux rest (cur.push c) := by
        simp [rawSegsAux, hc]
      rw [hraw] at h
      have hstep : cleanRun rooted (c :: rest) segs cur =
          cleanRun rooted rest segs (cur.push c) := by
        simp [cleanRun, hc]
      rw [hstep, ih (cur.push c) segs h, hraw]

theorem secureFileBase_append_data (p : String) :
    (secureFileBasePath ++ "/" ++ p).data = "/v1/secure-file/".data ++ p.data := by
  have h : secureFileBasePath ++ "/" ++ p = "/v1/secure-file/" ++ p := rfl
  rw [h, String.data_append]

theorem pathClean_of_base_append (p : String) :
    pathClean (secureFileBasePath ++ "/" ++ p) =
      (if joinSegs ((cleanRun true p.data ["secure-file", "v1"] "").reverse) = "" then "/"
       else "/" ++ joinSegs ((cleanRun true p.data ["secure-file", "v1"] "").reverse)) := by
  have hdata := secureFileBase_append_data p
  have hne : secureFileBasePath ++ "/" ++ p ≠ "" := by
    intro hq
    rw [hq] at hdata
    simp at hdata
  have hrooted : (secureFileBasePath ++ "/" ++ p).data.head? = some '/' := by
    rw [hdata]
    rfl
  rw [pathClean, if_neg hne, hdata]
  have hhead : ("/v1/secure-file/".data ++ p.data).head? = some '/' := rfl
  rw [hhead]
  simp [cleanRun_base_consumed]

theorem pathJoin_base_eq_clean (p : String) :
    pathJoin secureFileBasePath p = pathClean (secureFileBasePath ++ "/" ++ p) := by
  rw [pathJoin, if_neg (by decide : ¬secureFileBasePath = "")]

theorem pathJoin_base_slash (p : String) :
    pathJoin secureFileBasePath p = pathJoin secureFileBasePath ("/" ++ p) := by
  rw [pathJoin_base_eq_clean, pathJoin_base_eq_clean, pathClean_of_base_append,
      pathClean_of_base_append]
  have hq : ("/" ++ p).data = '/' :: p.data := by
    rw [String.data_append]
    rfl
  rw [hq, cleanRun_slash]

theorem pathJoin_base_no_dotdot (p : String) (h : ".." ∉ rawSegs p) :
    pathJoin secureFileBasePath p = secureFileBasePath ++ cleanedSuffix p := by
  have hraw : rawSegs p = rawSegsAux p.data "" := rfl
  rw [hraw] at h
  rw [pathJoin_base_eq_clean, pathClean_of_base_append,
      cleanRun_no_dotdot true p.data "" ["secure-file", "v1"] h]
  simp only [cleanedSuffix, hraw]
  generalize (rawSegsAux p.data "").filter (fun s => ¬(s = "" ∨ s = ".")) = L
  have hrev : (L.reverse ++ ["secure-file", "v1"]).reverse = "v1" :: "secure-file" :: L := by
    simp
  rw [hrev]
  cases L with
  | nil => decide
  | cons s t =>
    have hj : joinSegs ("v1" :: "secure-file" :: s :: t) =
        "v1" ++ "/" ++ ("secure-file" ++ "/" ++ joinSegs (s :: t)) := rfl
    rw [hj]
    have hne : ("v1" ++ "/" ++ ("secure-file" ++ "/" ++ joinSegs (s :: t))) ≠ "" := by
      intro hq
      have hd := congrArg String.data hq
      simp [String.data_append] at hd
    rw [if_neg hne, if_neg (by simp : ¬(s :: t : List String) = [])]
    rfl

/-- C10: the remote path is normalized by `path.Join` before dispatch — for
every remote path `p`, the joined request path (and hence the request `Get`
and `Put` hand to the transport) is the same for `p` and `"/" ++ p`; and for
`p` without `..` elements the request path is the single-file base route
followed by the cleaned `p` (empty and `.` segments dropped, duplicate
slashes collapsed). -/
theorem request_path_normalized :
    (∀ p, pathJoin secureFileBasePath p = pathJoin secureFileBasePath ("/" ++ p)) ∧
    (∀ (transport : Transport) (fs : FileSys) (p dir : String),
      (SecureFile.Get transport fs p dir).2.2 =
        (SecureFile.Get transport fs ("/" ++ p) dir).2.2) ∧
    (∀ (transport : TransportWithBody) (fs : FileSys) (boundary p localfile : String),
      (SecureFile.Put transport fs boundary p localfile).2 =
        (SecureFile.Put transport fs boundary ("/" ++ p) localfile).2) ∧
    (∀ p, ".." ∉ rawSegs p →
      pathJoin secureFileBasePath p = secureFileBasePath ++ cleanedSuffix p) := by
  refine ⟨pathJoin_base_slash, ?_, ?_, pathJoin_base_no_dotdot⟩
  · intro transport fs p dir
    rw [get_requests, get_requests, pathJoin_base_slash]
  · intro transport fs boundary p localfile
    rw [put_requests, put_requests, pathJoin_base_slash]

/-- C10 (witness): the `..`-free remote path `a//b/./c` dispatches to the base
route followed by its cleaned form. -/
theorem request_path_normalized_witness :
    pathJoin secureFileBasePath "a//b/./c" = "/v1/secure-file/a/b/c" := by
  have h := request_path_normalized.2.2.2 "a//b/./c" (by decide)
  exact h

/-! ## C7 — decode/encode round trip and the count invariant

Inversion lemmas for the spec-modelled codec, then the round-trip theorem and
the counterexample showing that field-by-field decoding enforces neither
`ResultCount = len(summaries)` nor `HasNext`/next-offset consistency. -/

theorem encodeNextOffset_decode (j : Json) (o : Option Int)
    (h : decodeNextOffset j = some o) : encodeNextOffset o = j := by
  cases j <;> simp [decodeNextOffset] at h <;> simp [← h, encodeNextOffset]

theorem encodeSummary_decode (j : Json) (s : SecureFileSummary)
    (h : decodeSummary j = some s) : encodeSummary s = j := by
  unfold decodeSummary at h
  split at h
  · simp at h
    subst h
    rfl
  · simp at h

theorem encodeSummaries_decode (js : List Json) :
    ∀ l, decodeSummaries js = some l → l.map encodeSummary = js := by
  induction js with
  | nil =>
    intro l h
    simp [decodeSummaries] at h
    simp [← h]
  | cons j rest ih =>
    intro l h
    simp only [decodeSummaries, Option.bind_eq_bind, Option.bind_eq_some] at h
    obtain ⟨s, hs, l2, hl2, hp⟩ := h
    simp only [pure, Option.some.injEq] at hp
    subst hp
    simp [encodeSummary_decode j s hs, ih l2 hl2]

theorem decode_encodeNextOffset (o : Option Int) :
    decodeNextOffset (encodeNextOffset o) = some o := by
  cases o <;> rfl

theorem decode_encodeSummary (s : SecureFileSummary) :
    decodeSummary (encodeSummary s) = some s := rfl

theorem decode_encodeSummaries (l : List SecureFileSummary) :
    decodeSummaries (l.map encodeSummary) = some l := by
  induction l with
  | nil => rfl
  | cons s rest ih => simp [decodeSummaries, decode_encodeSummary, ih]

theorem encode_decode_sfr (j : Json) (r : SecureFilesResponse)
    (h : decodeSecureFilesResponse j = some r) : encodeSecureFilesResponse r = j := by
  unfold decodeSecureFilesResponse at h
  split at h
  · simp only [Option.bind_eq_bind, Option.bind_eq_some] at h
    obtain ⟨noff, hno, sums, hsums, hp⟩ := h
    simp only [pure, Option.some.injEq] at hp
    subst hp
    simp [encodeSecureFilesResponse, encodeNextOffset_decode _ _ hno,
          encodeSummaries_decode _ _ hsums]
  · simp at h

theorem decode_encode_sfr (r : SecureFilesResponse) :
    decodeSecureFilesResponse (encodeSecureFilesResponse r) = some r := by
  simp [encodeSecureFilesResponse, decodeSecureFilesResponse, decode_encodeNextOffset,
        decode_encodeSummaries]

/-- A well-formed wire document whose `file_count_in_result` (2) disagrees
with the number of summaries (1) and which pairs `has_next: false` with a
present `next_offset`. -/
def inconsistentListDoc : Json :=
  .obj [("has_next", .bool false), ("next_offset", .num 7), ("limit", .num 1000),
        ("offset", .num 0), ("file_count_in_result", .num 2),
        ("total_file_count", .num 2),
        ("secure_file_summaries", .arr
          [.obj [("sdbox_id", .str "id"), ("path", .str "p"),
                 ("size_in_bytes", .num 1), ("name", .str "n"),
                 ("created_by", .str "c"), ("created_ts", .str "t"),
                 ("last_updated_by", .str "c"), ("last_updated_ts", .str "t")]])]

/-- The decoded form of `inconsistentListDoc`. -/
def inconsistentListResp : SecureFilesResponse :=
  ⟨false, some 7, 1000, 0, 2, 2, [⟨"id", "p", 1, "n", "c", "t", "c", "t"⟩]⟩

/-- C7 (counterexample): decoding is field-by-field, so `inconsistentListDoc`
decodes successfully into a response whose `ResultCount` (2) differs from the
number of summaries (1) and which has `HasNext` false together with a present
next-offset — the claimed invariants do not hold of every decoded response. -/
theorem securefiles_invariant_counterexample :
    decodeSecureFilesResponse inconsistentListDoc = some inconsistentListResp ∧
    inconsistentListResp.resultCount ≠ (inconsistentListResp.summaries.length : Int) ∧
    inconsistentListResp.hasNext = false ∧
    inconsistentListResp.nextOffset ≠ none := by
  refine ⟨rfl, by decide, rfl, by decide⟩

/-- C7 (amended): decoding a valid JSON list document and re-encoding it
preserves every field (the codec is a bijection between decodable documents
and responses); but the decoder does not enforce the count or next-offset
invariants, which hold only of server-conforming documents. -/
theorem securefiles_decode_encode_roundtrip :
    (∀ (j : Json) (r : SecureFilesResponse),
      decodeSecureFilesResponse j = some r → encodeSecureFilesResponse r = j) ∧
    (∀ r : SecureFilesResponse,
      decodeSecureFilesResponse (encodeSecureFilesResponse r) = some r) :=
  ⟨encode_decode_sfr, decode_encode_sfr⟩

/-- C7 (witness): the round trip at a concrete empty-page document. -/
theorem securefiles_decode_encode_roundtrip_witness :
    encodeSecureFilesResponse ⟨false, none, 1000, 0, 0, 0, []⟩ =
      .obj [("has_next", .bool false), ("next_offset", .null), ("limit", .num 1000),
            ("offset", .num 0), ("file_count_in_result", .num 0),
            ("total_file_count", .num 0), ("secure_file_summaries", .arr [])] :=
  securefiles_decode_encode_roundtrip.1
    (.obj [("has_next", .bool false), ("next_offset", .null), ("limit", .num 1000),
           ("offset", .num 0), ("file_count_in_result", .num 0),
           ("total_file_count", .num 0), ("secure_file_summaries", .arr [])])
    ⟨false, none, 1000, 0, 0, 0, []⟩ rfl
